import Mathlib

/-!
Verification development for the `dgws` WebSocket session manager
(darwinOrg/go-websocket).  The definitions below are shallow embeddings of
the Go source: the per-connection context key-value store and its accessors,
the message pump of `Get` (ws.go), the admission gate, `upgradeWithTimeout`,
the keepalive loop `startPing`, and the relay functions `WebSocketForward` /
`syncWsMessage`.
-/

namespace DgWs

/-! gorilla/websocket message type constants. -/

def TextMessage : Int := 1
def BinaryMessage : Int := 2
def CloseMessage : Int := 8
def PingMessage : Int := 9
def PongMessage : Int := 10

/-! ## Session context (dgctx extra key-value store)

`DgContext.SetExtraKeyValue` / `GetExtraValue` are modelled as an
association list with the most recent binding first; the stored values are
the dynamically typed values the Go code actually stores (bools, `*websocket.Conn`
handles, int64 timestamps, `*sync.WaitGroup` handles). -/

inductive CtxValue where
  | boolVal (b : Bool)
  | connVal (id : Nat)
  | tsVal (t : Int)
  | wgVal
deriving DecidableEq, Repr

def DgContext : Type := List (String × CtxValue)

def emptyCtx : DgContext := []

def setExtraKeyValue (ctx : DgContext) (k : String) (v : CtxValue) : DgContext :=
  (k, v) :: ctx

def getExtraValue : DgContext → String → Option CtxValue
  | [], _ => none
  | (k', v) :: rest, k => if k' = k then some v else getExtraValue rest k

/-! Context keys, from ws.go. -/

def ConnKey : String := "WsConn"
def EndedKey : String := "WsEnded"
def ForwardConnKey : String := "WsForwardConn"
def ForwardConnTimestampKey : String := "WsForwardConnTimestamp"
def ForwardEndedKey : String := "WsForwardEnded"
def WaitGroupKey : String := "WsWaitGroup"

/-! Session-state API operations, from ws.go. -/

def SetConn (ctx : DgContext) (id : Nat) : DgContext :=
  setExtraKeyValue ctx ConnKey (.connVal id)

def SetWsEnded (ctx : DgContext) : DgContext :=
  setExtraKeyValue ctx EndedKey (.boolVal true)

def IsWsEnded (ctx : DgContext) : Bool :=
  match getExtraValue ctx EndedKey with
  | none => false
  | some (.boolVal e) => e
  | some _ => false

def SetForwardConn (ctx : DgContext) (forwardMark : String) (id : Nat) : DgContext :=
  setExtraKeyValue ctx (ForwardConnKey ++ forwardMark) (.connVal id)

def SetForwardWsEnded (ctx : DgContext) (forwardMark : String) : DgContext :=
  setExtraKeyValue ctx (ForwardEndedKey ++ forwardMark) (.boolVal true)

def UnsetForwardWsEnded (ctx : DgContext) (forwardMark : String) : DgContext :=
  setExtraKeyValue ctx (ForwardEndedKey ++ forwardMark) (.boolVal false)

def IsForwardWsEnded (ctx : DgContext) (forwardMark : String) : Bool :=
  match getExtraValue ctx (ForwardEndedKey ++ forwardMark) with
  | none => false
  | some (.boolVal e) => e
  | some _ => false

def SetForwardConnTimestamp (ctx : DgContext) (forwardMark : String) (ts : Int) : DgContext :=
  setExtraKeyValue ctx (ForwardConnTimestampKey ++ forwardMark) (.tsVal ts)

def SetWaitGroup (ctx : DgContext) : DgContext :=
  setExtraKeyValue ctx WaitGroupKey .wgVal

/-- The mutating operations the session-state API exposes on a context. -/
inductive ApiOp where
  | setConn (id : Nat)
  | setWsEnded
  | setForwardConn (mark : String) (id : Nat)
  | setForwardWsEnded (mark : String)
  | unsetForwardWsEnded (mark : String)
  | setForwardConnTimestamp (mark : String) (ts : Int)
  | setWaitGroup
deriving DecidableEq, Repr

def applyOp (ctx : DgContext) : ApiOp → DgContext
  | .setConn id => SetConn ctx id
  | .setWsEnded => SetWsEnded ctx
  | .setForwardConn mark id => SetForwardConn ctx mark id
  | .setForwardWsEnded mark => SetForwardWsEnded ctx mark
  | .unsetForwardWsEnded mark => UnsetForwardWsEnded ctx mark
  | .setForwardConnTimestamp mark ts => SetForwardConnTimestamp ctx mark ts
  | .setWaitGroup => SetWaitGroup ctx

def applyOps (ctx : DgContext) (ops : List ApiOp) : DgContext :=
  ops.foldl applyOp ctx

/-! ## The message pump of `Get` (ws.go, lines 298-364)

Each blocking `conn.ReadMessage()` call either yields a frame
`(messageType, payload)` or a transport error; a session's transcript of
reads is a list of such events.  The pump is the loop body of `Get`:
check the ended flag, read, on a read error mark ended and break, on an
end frame (per `IsEndedHandler`) run the end callback, echo a close
frame and break, skip pong frames, otherwise dispatch to the business
handler and continue even if it errs. -/

inductive ReadEvent where
  | frame (mt : Int) (data : List Nat)
  | readErr
deriving DecidableEq, Repr

inductive PumpEvent where
  | dispatched (mt : Int) (data : List Nat) (bizErr : Bool)
  | pongSkipped
  | endCallback (cbkErr : Bool)
  | closeEcho (data : List Nat)
  | readErrorEnd
deriving DecidableEq, Repr

/-- Pump configuration: the `IsEndedHandler` predicate and, when an
`EndCallbackHandler` is configured, whether that callback errs. -/
structure PumpConfig where
  isEnd : Int → List Nat → Bool
  endCallbackErr : Option Bool

/-- `DefaultIsEndHandler` from ws.go: a close frame or the -1 sentinel type. -/
def defaultIsEnd (mt : Int) (_ : List Nat) : Bool :=
  mt == CloseMessage || mt == -1

/-- The actions `Get` performs on the end-frame path: optional end callback
(its error only logged), then a best-effort close-frame echo. -/
def endPathEvents (cfg : PumpConfig) (data : List Nat) : List PumpEvent :=
  (match cfg.endCallbackErr with
   | none => []
   | some e => [.endCallback e]) ++ [.closeEcho data]

/-- The read/dispatch loop of `Get`, as a function from the initial ended
flag and the transcript of reads to the emitted pump events and the final
ended flag.  `biz mt data = true` means the business handler returned an
error for that message. -/
def pumpGet (cfg : PumpConfig) (biz : Int → List Nat → Bool) :
    Bool → List ReadEvent → List PumpEvent × Bool
  | true, _ => ([], true)
  | false, [] => ([], false)
  | false, .readErr :: _ => ([.readErrorEnd], true)
  | false, .frame mt data :: rest =>
    if cfg.isEnd mt data then
      (endPathEvents cfg data, true)
    else if mt == PongMessage then
      let r := pumpGet cfg biz false rest
      (.pongSkipped :: r.1, r.2)
    else
      let r := pumpGet cfg biz false rest
      (.dispatched mt data (biz mt data) :: r.1, r.2)

/-- The business-dispatch invocations of a pump run, in order. -/
def dispatchedOf (evs : List PumpEvent) : List (Int × List Nat) :=
  evs.filterMap fun e =>
    match e with
    | .dispatched mt data _ => some (mt, data)
    | _ => none

/-! ## `upgradeWithTimeout` (ws.go, lines 375-396)

The goroutine performs the upgrade and sends the connection (or the error)
into a one-slot buffered channel; the `select` races those channels against
`time.After(timeout)`.  We model the goroutine's result and the instant it
becomes available, measured against the timeout.  The record also tracks
what is left sitting in each buffered channel after the race, and which
sockets `upgradeWithTimeout` (or its goroutine) closed: the source contains
no `Close` call on any of its paths. -/

inductive UpgradeResult where
  | conn (id : Nat)
  | err (e : String)
deriving DecidableEq, Repr

inductive UpgradeOutcome where
  | success (id : Nat)
  | failure (e : String)
  | timeoutErr
deriving DecidableEq, Repr

structure UpgradeRun where
  outcome : UpgradeOutcome
  connChanBuf : List Nat
  errChanBuf : List String
  closedConns : List Nat
deriving DecidableEq, Repr

def upgradeWithTimeout (res : UpgradeResult) (resTime timeout : Nat) : UpgradeRun :=
  if resTime ≤ timeout then
    match res with
    | .conn id => ⟨.success id, [], [], []⟩
    | .err e => ⟨.failure e, [], [], []⟩
  else
    match res with
    | .conn id => ⟨.timeoutErr, [id], [], []⟩
    | .err e => ⟨.timeoutErr, [], [e], []⟩

/-! ## The keepalive scheduler `startPing` (ws.go, lines 398-412)

Each tick of the loop: sleep one period, poll `IsWsEnded` and return if it
is set, otherwise write a ping control frame with the configured deadline;
a write error is only logged and the loop continues.  A tick records the
polled ended flag and whether the `WriteControl` call fails. -/

structure PingTick where
  ended : Bool
  writeErr : Bool
deriving DecidableEq, Repr

inductive PingEvent where
  | sent (deadline : Nat) (failedLogged : Bool)
deriving DecidableEq, Repr

def startPingLoop (deadline : Nat) : List PingTick → List PingEvent
  | [] => []
  | t :: rest =>
    if t.ended then []
    else .sent deadline t.writeErr :: startPingLoop deadline rest

/-! ## Admission gate and the `bizHandler` of `Get` (ws.go, lines 209-296)

`Get`'s handler first consults the package-level semaphore: if it is nil
the check is skipped; otherwise a failed `TryAcquire` aborts with the busy
response and a successful one defers exactly one `Release`.  The body then
upgrades (deferring `conn.Close()` on success), runs the start handler, and
enters the pump loop; Go defers run LIFO on return, so the connection is
closed before the permit is released. -/

inductive Action where
  | busyResponse
  | releasePermit
  | upgradeFailResponse
  | startErrorFrame
  | closeConn
  | pumpEv (e : PumpEvent)
deriving DecidableEq, Repr

/-- The `bizHandler` closure of `Get`, as the list of externally visible
actions it performs.  `gate` is `none` when the semaphore is nil and
`some b` when it is configured with `TryAcquire` outcome `b`; `upgradeOk`
and `startErr` are the outcomes of `upgradeWithTimeout` and of the start
handler. -/
def bizHandlerGet (gate : Option Bool) (upgradeOk : Bool) (startErr : Bool)
    (cfg : PumpConfig) (biz : Int → List Nat → Bool) (reads : List ReadEvent) :
    List Action :=
  if gate = some false then [.busyResponse]
  else
    let deferRelease : List Action :=
      if gate = some true then [.releasePermit] else []
    if !upgradeOk then .upgradeFailResponse :: deferRelease
    else
      let body : List Action :=
        if startErr then [.startErrorFrame]
        else (pumpGet cfg biz false reads).1.map .pumpEv
      body ++ [.closeConn] ++ deferRelease

/-- Modelled from the spec: the implementation of `gocc.NewDefaultSemaphore`
(the counting-permit pool behind `InitWsConnLimit`) is not part of this
repository; only its callers are.  Per the spec the Admission Gate is "a
simple counting semaphore" and "If the Gate is unconfigured (limit = 0 /
disabled), `tryEnter()` always succeeds and `release()` is a no-op". -/
structure Gate where
  limit : Nat
  held : Nat
deriving DecidableEq, Repr

/-- Modelled from the spec: non-blocking `tryEnter` on the counting-permit
pool; with limit 0 the gate is disabled and entry always succeeds, otherwise
entry succeeds exactly when a permit is free. -/
def tryEnter (g : Gate) : Bool × Gate :=
  if g.limit = 0 then (true, g)
  else if g.held < g.limit then (true, { g with held := g.held + 1 })
  else (false, g)

/-! ## The duplex relay `WebSocketForward` / `syncWsMessage` (forward.go)

`syncWsMessage` loops: poll the shared `needClose` flag, read one frame
from the source socket, unconditionally write it (same type, same payload)
to the destination socket, then terminate exactly when the frame type is a
close frame or the -1 sentinel, setting `needClose`.  The read's error
value is only logged, never branched on, and the function contains no
socket `Close` call.  Each read event carries the error flag the read
returned alongside the frame. -/

structure SyncRead where
  mt : Int
  data : List Nat
  err : Bool
deriving DecidableEq, Repr

inductive SyncEvent where
  | write (mt : Int) (data : List Nat)
  | storeNeedClose
deriving DecidableEq, Repr

structure SyncResult where
  events : List SyncEvent
  needCloseAfter : Bool
  closedSockets : List Nat
deriving DecidableEq, Repr

def isTerminalMt (mt : Int) : Bool :=
  mt == CloseMessage || mt == -1

def syncWsMessage (needClose : Bool) (reads : List SyncRead) : SyncResult :=
  if needClose then ⟨[], true, []⟩
  else
    match reads with
    | [] => ⟨[], false, []⟩
    | r :: rest =>
      if isTerminalMt r.mt then
        ⟨[.write r.mt r.data, .storeNeedClose], true, []⟩
      else
        let res := syncWsMessage false rest
        ⟨.write r.mt r.data :: res.events, res.needCloseAfter, res.closedSockets⟩

/-- Socket identifiers for the two sides of a relay. -/
def externalConnId : Nat := 0
def internalConnId : Nat := 1

/-- `WebSocketForward` after both sockets are up: the spawned goroutine's
body is exactly one `syncWsMessage` call (internal → external); the main
goroutine runs the other `syncWsMessage` (external → internal) and, when it
returns, the deferred closes run LIFO — internal socket first, then the
external one. -/
structure ForwardRun where
  mainEvents : List SyncEvent
  closedSockets : List Nat
deriving DecidableEq, Repr

def webSocketForwardMain (mainReads : List SyncRead) : ForwardRun :=
  let res := syncWsMessage false mainReads
  ⟨res.events, res.closedSockets ++ [internalConnId, externalConnId]⟩

/-- The spawned relay pump: the goroutine body is only the `syncWsMessage`
call, with nothing after it. -/
def spawnedPumpRun (reads : List SyncRead) : SyncResult :=
  syncWsMessage false reads

/-- Frames a relay pump consumes: every read up to and including the first
terminal one (close frame or -1 sentinel). -/
def takeThroughTerminal : List SyncRead → List SyncRead
  | [] => []
  | r :: rest =>
    if isTerminalMt r.mt then [r]
    else r :: takeThroughTerminal rest

/-! ## Helper lemmas -/

theorem string_length_append (a b : String) :
    (a ++ b).length = a.length + b.length := by
  rw [← String.length_data, ← String.length_data a, ← String.length_data b]
  show (a.data ++ b.data).length = _
  exact List.length_append a.data b.data

theorem getExtraValue_set (ctx : DgContext) (k : String) (v : CtxValue) (q : String) :
    getExtraValue (setExtraKeyValue ctx k v) q =
      if k = q then some v else getExtraValue ctx q := by
  simp [setExtraKeyValue, getExtraValue]

theorem forwardEndedKey_append_ne (m : String) : ForwardEndedKey ++ m ≠ EndedKey := by
  intro h
  have hl := congrArg String.length h
  rw [string_length_append] at hl
  have h1 : ForwardEndedKey.length = 14 := rfl
  have h2 : EndedKey.length = 7 := rfl
  omega

theorem forwardConnKey_append_ne (m : String) : ForwardConnKey ++ m ≠ EndedKey := by
  intro h
  have hl := congrArg String.length h
  rw [string_length_append] at hl
  have h1 : ForwardConnKey.length = 13 := rfl
  have h2 : EndedKey.length = 7 := rfl
  omega

theorem forwardTsKey_append_ne (m : String) : ForwardConnTimestampKey ++ m ≠ EndedKey := by
  intro h
  have hl := congrArg String.length h
  rw [string_length_append] at hl
  have h1 : ForwardConnTimestampKey.length = 22 := rfl
  have h2 : EndedKey.length = 7 := rfl
  omega

/-- No session-state operation other than `SetWsEnded` touches the `EndedKey`
binding, and `SetWsEnded` stores `true`: one step preserves an ended flag. -/
theorem isWsEnded_applyOp (ctx : DgContext) (op : ApiOp)
    (h : IsWsEnded ctx = true) : IsWsEnded (applyOp ctx op) = true := by
  cases op with
  | setConn id =>
    simpa [applyOp, SetConn, IsWsEnded, getExtraValue_set,
      show ConnKey ≠ EndedKey from by decide] using h
  | setWsEnded =>
    simp [applyOp, SetWsEnded, IsWsEnded, getExtraValue_set]
  | setForwardConn mark id =>
    simpa [applyOp, SetForwardConn, IsWsEnded, getExtraValue_set,
      forwardConnKey_append_ne mark] using h
  | setForwardWsEnded mark =>
    simpa [applyOp, SetForwardWsEnded, IsWsEnded, getExtraValue_set,
      forwardEndedKey_append_ne mark] using h
  | unsetForwardWsEnded mark =>
    simpa [applyOp, UnsetForwardWsEnded, IsWsEnded, getExtraValue_set,
      forwardEndedKey_append_ne mark] using h
  | setForwardConnTimestamp mark ts =>
    simpa [applyOp, SetForwardConnTimestamp, IsWsEnded, getExtraValue_set,
      forwardTsKey_append_ne mark] using h
  | setWaitGroup =>
    simpa [applyOp, SetWaitGroup, IsWsEnded, getExtraValue_set,
      show WaitGroupKey ≠ EndedKey from by decide] using h

/-! ## Claim C5 -/

/-- Claim C5 is false as stated: `UnsetForwardWsEnded` is an operation of the
session-state API that moves the forward ended flag from the ended state back
to the not-ended state, so a component can observe the reversal. -/
theorem C5_counterexample :
    IsForwardWsEnded (SetForwardWsEnded emptyCtx "m") "m" = true ∧
    IsForwardWsEnded (UnsetForwardWsEnded (SetForwardWsEnded emptyCtx "m") "m") "m" = false := by
  constructor <;> decide

/-- Claim C5 (amended): the main session ended flag is monotone — once
`IsWsEnded` holds, applying any sequence of session-state API operations
keeps it set, since `SetWsEnded` is the only operation writing `EndedKey`
and it always stores `true`.  The forward ended flag, by contrast, is
resettable via `UnsetForwardWsEnded`. -/
theorem C5_main_ended_monotone (ops : List ApiOp) (ctx : DgContext)
    (h : IsWsEnded ctx = true) : IsWsEnded (applyOps ctx ops) = true := by
  induction ops generalizing ctx with
  | nil => exact h
  | cons op rest ih => exact ih (applyOp ctx op) (isWsEnded_applyOp ctx op h)

/-- Concrete instance of the amended C5 theorem. -/
theorem C5_main_ended_monotone_witness :
    IsWsEnded (SetWsEnded emptyCtx) = true ∧
    IsWsEnded (applyOps (SetWsEnded emptyCtx)
      [ApiOp.unsetForwardWsEnded "m", ApiOp.setConn 3, ApiOp.setWaitGroup]) = true :=
  ⟨by decide, C5_main_ended_monotone _ _ (by decide)⟩

/-! ## Pump unfolding lemmas -/

/-- One pump iteration on a data frame: dispatch, then continue with the
rest of the transcript whatever the business handler returned. -/
theorem pumpGet_frame_data (cfg : PumpConfig) (biz : Int → List Nat → Bool)
    (mt : Int) (d : List Nat) (rest : List ReadEvent)
    (hEnd : cfg.isEnd mt d = false) (hPong : (mt == PongMessage) = false) :
    pumpGet cfg biz false (.frame mt d :: rest) =
      (.dispatched mt d (biz mt d) :: (pumpGet cfg biz false rest).1,
       (pumpGet cfg biz false rest).2) := by
  simp [pumpGet, hEnd, hPong]

/-- One pump iteration on an end frame: run the end path and stop. -/
theorem pumpGet_end_frame (cfg : PumpConfig) (biz : Int → List Nat → Bool)
    (mt : Int) (d : List Nat) (rest : List ReadEvent)
    (hEnd : cfg.isEnd mt d = true) :
    pumpGet cfg biz false (.frame mt d :: rest) = (endPathEvents cfg d, true) := by
  simp [pumpGet, hEnd]

theorem dispatchedOf_cons_dispatched (mt : Int) (d : List Nat) (b : Bool)
    (evs : List PumpEvent) :
    dispatchedOf (.dispatched mt d b :: evs) = (mt, d) :: dispatchedOf evs := by
  simp [dispatchedOf]

theorem dispatchedOf_endPath (cfg : PumpConfig) (d : List Nat) :
    dispatchedOf (endPathEvents cfg d) = [] := by
  cases h : cfg.endCallbackErr <;> simp [endPathEvents, h, dispatchedOf]

/-! ## Claim C1 -/

/-- Claim C1: with no transport read error, a transcript of N data frames
followed by a close frame makes the pump of `Get` invoke the business
dispatch callback exactly N times, once per data frame in arrival order,
and zero further times after the close frame, whatever follows it. -/
theorem C1_dispatch_once_per_data_frame (frames : List (Int × List Nat))
    (closeData : List Nat) (rest : List ReadEvent) (cbk : Option Bool)
    (biz : Int → List Nat → Bool)
    (h : ∀ f ∈ frames, f.1 = TextMessage ∨ f.1 = BinaryMessage) :
    dispatchedOf (pumpGet ⟨defaultIsEnd, cbk⟩ biz false
      (frames.map (fun f => ReadEvent.frame f.1 f.2) ++
        ReadEvent.frame CloseMessage closeData :: rest)).1 = frames := by
  induction frames with
  | nil =>
    rw [List.map_nil, List.nil_append,
      pumpGet_end_frame ⟨defaultIsEnd, cbk⟩ biz CloseMessage closeData rest (by rfl)]
    exact dispatchedOf_endPath _ closeData
  | cons f fs ih =>
    obtain ⟨mt, d⟩ := f
    have hf := h (mt, d) (List.mem_cons_self _ _)
    have hEnd : defaultIsEnd mt d = false := by
      rcases hf with h1 | h1 <;> simp_all [defaultIsEnd, TextMessage, BinaryMessage] <;> decide
    have hPong : (mt == PongMessage) = false := by
      rcases hf with h1 | h1 <;> simp_all [TextMessage, BinaryMessage] <;> decide
    rw [List.map_cons, List.cons_append, pumpGet_frame_data _ biz mt d _ hEnd hPong,
      dispatchedOf_cons_dispatched]
    exact congrArg _ (ih fun g hg => h g (List.mem_cons_of_mem _ hg))

/-- Concrete instance of C1: two data frames, a close frame, then a stray
frame that is never read. -/
theorem C1_dispatch_once_per_data_frame_witness :
    (∀ f ∈ [((1 : Int), [10]), ((2 : Int), ([20] : List Nat))],
      f.1 = TextMessage ∨ f.1 = BinaryMessage) ∧
    dispatchedOf (pumpGet ⟨defaultIsEnd, none⟩ (fun _ _ => false) false
      ([((1 : Int), [10]), ((2 : Int), ([20] : List Nat))].map
          (fun f => ReadEvent.frame f.1 f.2) ++
        ReadEvent.frame CloseMessage [] ::
          [ReadEvent.frame 1 [99]])).1 = [((1 : Int), [10]), ((2 : Int), [20])] :=
  ⟨by decide, C1_dispatch_once_per_data_frame _ _ _ _ _ (by decide)⟩

/-! ## Claim C7 -/

/-- Claim C7: a read error in the pump of `Get` is terminal — the pump marks
the session ended and exits the loop with only the logged read-error event:
no dispatch happens for that iteration, no retry consumes the rest of the
transcript. -/
theorem C7_read_error_terminal (cfg : PumpConfig) (biz : Int → List Nat → Bool)
    (rest : List ReadEvent) :
    pumpGet cfg biz false (.readErr :: rest) = ([.readErrorEnd], true) := by
  simp [pumpGet]

/-! ## Claim C9 -/

/-- Claim C9: a business dispatch error never terminates the pump loop — on
a data frame whose dispatch errs, the error is logged in the dispatch event
and the loop proceeds on the remaining transcript exactly as it otherwise
would. -/
theorem C9_biz_error_not_terminal (cfg : PumpConfig) (biz : Int → List Nat → Bool)
    (mt : Int) (d : List Nat) (rest : List ReadEvent)
    (hEnd : cfg.isEnd mt d = false) (hPong : (mt == PongMessage) = false)
    (hErr : biz mt d = true) :
    pumpGet cfg biz false (.frame mt d :: rest) =
      (.dispatched mt d true :: (pumpGet cfg biz false rest).1,
       (pumpGet cfg biz false rest).2) := by
  rw [pumpGet_frame_data cfg biz mt d rest hEnd hPong, hErr]

/-- Concrete instance of C9: an erring dispatch on a text frame, after which
the pump still processes the following close frame. -/
theorem C9_biz_error_not_terminal_witness :
    defaultIsEnd 1 [5] = false ∧ ((1 : Int) == PongMessage) = false ∧
    pumpGet ⟨defaultIsEnd, none⟩ (fun _ _ => true) false
        [ReadEvent.frame 1 [5], ReadEvent.frame CloseMessage []] =
      (.dispatched 1 [5] true ::
        (pumpGet ⟨defaultIsEnd, none⟩ (fun _ _ => true) false
          [ReadEvent.frame CloseMessage []]).1,
       (pumpGet ⟨defaultIsEnd, none⟩ (fun _ _ => true) false
          [ReadEvent.frame CloseMessage []]).2) :=
  ⟨by decide, by decide,
    C9_biz_error_not_terminal _ _ _ _ _ (by decide) (by decide) rfl⟩

/-! ## Claim C8 -/

/-- Claim C8: the keepalive loop sends one ping control frame with the
configured write deadline per period for every tick at which the session is
not ended — a ping write failure is only logged and the next tick still
pings — and the loop stops (without pinging) at the first tick that finds
the session ended.  The scheduler itself never marks the session ended. -/
theorem C8_ping_every_period (deadline : Nat) (pre rest : List PingTick)
    (t : PingTick) (h : ∀ u ∈ pre, u.ended = false) (ht : t.ended = true) :
    startPingLoop deadline (pre ++ t :: rest) =
      pre.map fun u => PingEvent.sent deadline u.writeErr := by
  induction pre with
  | nil => simp [startPingLoop, ht]
  | cons u us ih =>
    have hu := h u (List.mem_cons_self _ _)
    simp [startPingLoop, hu, ih fun v hv => h v (List.mem_cons_of_mem _ hv)]

/-- Concrete instance of C8: two live ticks — the second with a failing
write — then an ended tick that stops the loop. -/
theorem C8_ping_every_period_witness :
    (∀ u ∈ [PingTick.mk false false, PingTick.mk false true], u.ended = false) ∧
    PingTick.ended ⟨true, false⟩ = true ∧
    startPingLoop 9
        ([PingTick.mk false false, PingTick.mk false true] ++
          PingTick.mk true false :: []) =
      [PingEvent.sent 9 false, PingEvent.sent 9 true] :=
  ⟨by decide, by decide,
    C8_ping_every_period 9 _ [] ⟨true, false⟩ (by decide) (by decide)⟩

/-! ## Claim C6 -/

theorem count_release_map_pumpEv (evs : List PumpEvent) :
    ((evs.map Action.pumpEv).count Action.releasePermit) = 0 := by
  induction evs with
  | nil => rfl
  | cons e es ih => simp [List.count_cons, ih]

/-- Claim C6: across every exit path of `Get`'s handler — busy rejection,
upgrade failure, start-handler failure, normal end, transport error — the
admission permit is released exactly once when `TryAcquire` succeeded and
never otherwise; in particular a rejected request releases nothing and an
unconfigured gate is never released. -/
theorem C6_release_iff_tryEnter (gate : Option Bool) (upgradeOk startErr : Bool)
    (cfg : PumpConfig) (biz : Int → List Nat → Bool) (reads : List ReadEvent) :
    (bizHandlerGet gate upgradeOk startErr cfg biz reads).count .releasePermit =
      if gate = some true then 1 else 0 := by
  rcases gate with _ | b
  · cases upgradeOk <;> cases startErr <;>
      simp [bizHandlerGet, List.count_append, List.count_cons, count_release_map_pumpEv]
  · cases b <;> cases upgradeOk <;> cases startErr <;>
      simp [bizHandlerGet, List.count_append, List.count_cons, count_release_map_pumpEv]

/-! ## Claim C3 -/

theorem busy_not_mem_map_pumpEv (evs : List PumpEvent) :
    Action.busyResponse ∉ evs.map Action.pumpEv := by
  simp

/-- Claim C3: with the admission gate configured with limit 0 the gate is
disabled — `tryEnter` succeeds on every attempt, whatever was already
admitted, and the handler therefore never answers with the busy response. -/
theorem C3_limit_zero_always_admits (g : Gate) (upgradeOk startErr : Bool)
    (cfg : PumpConfig) (biz : Int → List Nat → Bool) (reads : List ReadEvent)
    (h : g.limit = 0) :
    (tryEnter g).1 = true ∧
      Action.busyResponse ∉
        bizHandlerGet (some (tryEnter g).1) upgradeOk startErr cfg biz reads := by
  have h1 : (tryEnter g).1 = true := by simp [tryEnter, h]
  refine ⟨h1, ?_⟩
  rw [h1]
  cases upgradeOk <;> cases startErr <;>
    simp [bizHandlerGet, busy_not_mem_map_pumpEv]

/-- Concrete instance of C3: a limit-0 gate with five permits notionally
outstanding still admits. -/
theorem C3_limit_zero_always_admits_witness :
    Gate.limit ⟨0, 5⟩ = 0 ∧
    ((tryEnter ⟨0, 5⟩).1 = true ∧
      Action.busyResponse ∉
        bizHandlerGet (some (tryEnter ⟨0, 5⟩).1) true false
          ⟨defaultIsEnd, none⟩ (fun _ _ => false) []) :=
  ⟨rfl, C3_limit_zero_always_admits ⟨0, 5⟩ true false ⟨defaultIsEnd, none⟩
    (fun _ _ => false) [] rfl⟩

/-! ## Claim C2 -/

/-- Claim C2 fails on the code: when the timeout (5) elapses before the
upgrade goroutine completes (at 10), `upgradeWithTimeout` returns the
distinct timeout error, and the goroutine's later successful socket (id 7)
is parked in the one-slot buffered channel with no close performed on any
path — the socket is leaked, not closed. -/
theorem C2_timeout_leaks_late_socket :
    upgradeWithTimeout (.conn 7) 10 5 = ⟨.timeoutErr, [7], [], []⟩ ∧
      (upgradeWithTimeout (.conn 7) 10 5).closedConns = [] := by
  constructor <;> rfl

/-! ## Claim C4 -/

theorem syncWsMessage_closes_nothing (nc : Bool) (reads : List SyncRead) :
    (syncWsMessage nc reads).closedSockets = [] := by
  induction reads generalizing nc with
  | nil => cases nc <;> rfl
  | cons r rest ih =>
    cases nc with
    | true => rfl
    | false =>
      by_cases hterm : isTerminalMt r.mt = true
      · simp [syncWsMessage, hterm]
      · simp [syncWsMessage, hterm, ih false]

/-- Claim C4 fails as stated: a relay pump's own exit path closes no socket.
Here the spawned pump exits by reading a close frame, yet its socket-close
set is empty — in particular the socket its sibling is blocked on is not
closed by this exit. -/
theorem C4_counterexample :
    (spawnedPumpRun [⟨CloseMessage, [], false⟩]).needCloseAfter = true ∧
    (spawnedPumpRun [⟨CloseMessage, [], false⟩]).closedSockets = [] := by
  constructor <;> rfl

/-- Claim C4 (amended): sockets are closed only when the main relay pump
exits — `WebSocketForward`'s deferred cleanup then closes both sockets
(internal first, then external), which is what terminates the spawned
sibling; an exit of either pump by itself closes nothing and only sets the
shared `needClose` flag. -/
theorem C4_amended_main_exit_closes_both (mainReads : List SyncRead) :
    (webSocketForwardMain mainReads).closedSockets =
      [internalConnId, externalConnId] ∧
    ∀ (nc : Bool) (reads : List SyncRead),
      (syncWsMessage nc reads).closedSockets = [] := by
  refine ⟨?_, fun nc reads => syncWsMessage_closes_nothing nc reads⟩
  simp [webSocketForwardMain, syncWsMessage_closes_nothing]

/-! ## Claim C10 -/

/-- Claim C10: every relay-pump iteration writes the frame it just read —
same message type and payload — to the opposite socket before the
termination check: the write happens even for the terminal frame (a close
frame or the -1 sentinel produced by a failed read), and the pump
terminates exactly when some read's type is the close type or -1, never
directly from the read's error value (the error fields of the transcript do
not appear in the termination condition). -/
theorem C10_relay_writes_before_termination_check (reads : List SyncRead) :
    (syncWsMessage false reads).events =
      ((takeThroughTerminal reads).map fun r => SyncEvent.write r.mt r.data) ++
        (if reads.any (fun r => isTerminalMt r.mt) then [SyncEvent.storeNeedClose]
         else []) ∧
    (syncWsMessage false reads).needCloseAfter =
      reads.any fun r => isTerminalMt r.mt := by
  induction reads with
  | nil => exact ⟨rfl, rfl⟩
  | cons r rest ih =>
    by_cases hterm : isTerminalMt r.mt = true
    · constructor <;> simp [syncWsMessage, takeThroughTerminal, hterm]
    · constructor <;>
        simp [syncWsMessage, takeThroughTerminal, hterm, ih.1, ih.2]

end DgWs
